import Mathlib

/-!
# Order placement (`orders.go`)

A shallow embedding of `PlaceOrder` from `orders.go` and of the SQL statements it
issues inside one database transaction.

Modelling conventions.

* Go `int` and `int64` are 64-bit two's-complement integers.  They are represented
  as `Int`; every Go arithmetic operation that can overflow is wrapped explicitly by
  `wrapInt64`.  Go's `/` on integers truncates toward zero (`Int.tdiv`).
* The tables `items` and `vat_categories` are finite maps keyed by their primary key
  `id`; `orders` and `order_items` are lists of rows in insertion order.
* A transaction works on a private copy of the committed store.  `Commit` installs
  that copy, `Rollback` discards it.
* Failures of the storage engine (connection loss, deadlock, deadline exceeded, ...)
  are not determined by the program; they are supplied by an environment `Env`,
  which also supplies the identifier the engine assigns to a new `orders` row.
-/

namespace Orders

/-! ## Machine integers -/

/-- Two's-complement reduction of an integer into the `int64` range. -/
def wrapInt64 (x : Int) : Int := (x + 2 ^ 63) % 2 ^ 64 - 2 ^ 63

/-- Go `a * b` on `int64`. -/
def mulInt64 (a b : Int) : Int := wrapInt64 (a * b)

/-- Go `a + b` on `int64`. -/
def addInt64 (a b : Int) : Int := wrapInt64 (a + b)

/-- Go `a / b` on `int64` for a divisor other than `-1`: the quotient truncated toward zero. -/
def quoInt64 (a b : Int) : Int := Int.tdiv a b

/-- The value lies in the `int64` range. -/
def inInt64 (x : Int) : Prop := -(2 ^ 63) ≤ x ∧ x < 2 ^ 63

instance (x : Int) : Decidable (inInt64 x) := by unfold inInt64; infer_instance

/-! ## Data model (`orders.go` lines 14-35, 84-91) -/

/-- Go `type OrderItem struct { ID int; Quantity int }` (lines 14-17). -/
structure OrderItem where
  ID : Int
  Quantity : Int
  deriving DecidableEq, Repr

/-- Go `type OrderToPlace struct { Items []OrderItem }` (lines 19-21). -/
structure OrderToPlace where
  Items : List OrderItem
  deriving DecidableEq, Repr

/-- Go `type SelectedItem struct { ID int; PriceCents int64; VATCents int64; Quantity int }`
(lines 23-28). -/
structure SelectedItem where
  ID : Int
  PriceCents : Int
  VATCents : Int
  Quantity : Int
  deriving DecidableEq, Repr

/-- Go `type PlacedOrder struct { ID int; TotalPriceCents, TotalVATCents int64; Items []SelectedItem }`
(lines 30-35). -/
structure PlacedOrder where
  ID : Int
  TotalPriceCents : Int
  TotalVATCents : Int
  Items : List SelectedItem
  deriving DecidableEq, Repr

/-- An error reported by the storage engine or the driver, other than `sql.ErrNoRows`. -/
structure SqlError where
  msg : String
  deriving DecidableEq, Repr

/-- The error values `PlaceOrder` returns.  The five sentinels of lines 84-91 are
returned bare, except that `ErrInsufficientStock` is wrapped together with the item
identifier (`fmt.Errorf("%w: item ID %d", ...)`, line 144) and `ErrFailedToPlaceOrder`
is wrapped together with its cause (`fmt.Errorf("%w: %w", ...)`). -/
inductive OrderError where
  | ErrEmptyOrderItems
  | ErrInvalidItemQuantity
  | ErrDuplicateOrderItem
  | ErrItemNotFound
  | ErrInsufficientStock (itemID : Int)
  | ErrFailedToPlaceOrder (cause : SqlError)
  deriving DecidableEq, Repr

/-! ## The store -/

/-- A row of table `items`, without its primary key. -/
structure ItemRow where
  quantityInStock : Int
  priceCents : Int
  vatCategoryId : Int
  deriving DecidableEq, Repr

/-- A row of table `order_items`. -/
structure OrderItemRow where
  orderId : Int
  itemId : Int
  quantity : Int
  priceCents : Int
  vatCents : Int
  deriving DecidableEq, Repr

/-- The four tables `PlaceOrder` touches.  `items` and `vat_categories` map a primary
key to the row (for `vat_categories`, to its `rate`); `orders` lists the identifiers
of the order headers. -/
structure Store where
  items : Int → Option ItemRow
  vat_categories : Int → Option Int
  orders : List Int
  order_items : List OrderItemRow

/-- What the storage engine decides on its own during one call of `PlaceOrder`:
which statements fail, and the identifier given to the inserted `orders` row.
The statements on a basket line are keyed by the item identifier they are run with. -/
structure Env where
  beginTx : Option SqlError
  selectItem : Int → Option SqlError
  updateItem : Int → Option SqlError
  insertOrder : Except SqlError Int
  insertOrderItem : Int → Option SqlError
  commit : Option SqlError

/-- No statement fails. -/
def Env.noFaults (env : Env) : Prop :=
  env.beginTx = none ∧ (∀ id, env.selectItem id = none) ∧ (∀ id, env.updateItem id = none) ∧
    (∃ id, env.insertOrder = .ok id) ∧ (∀ id, env.insertOrderItem id = none) ∧ env.commit = none

/-- The environment in which every statement succeeds and the new order gets `orderId`. -/
def Env.ok (orderId : Int) : Env :=
  ⟨none, fun _ => none, fun _ => none, .ok orderId, fun _ => none, none⟩

/-- A transaction in progress: its private working copy of the store. -/
structure Tx where
  work : Store

/-- The outcome of `QueryRow(...).Scan(...)`. -/
inductive RowResult (α : Type) where
  | row (a : α)
  | ErrNoRows
  | failed (e : SqlError)

/-- The call `db.BeginTx(ctx, nil)` (line 114): the transaction starts from the
committed store. -/
def BeginTx (env : Env) (db : Store) : Except SqlError Tx :=
  match env.beginTx with
  | some e => .error e
  | none => .ok ⟨db⟩

/-- The call `tx.Commit()` (line 186): the committed store afterwards, or the failure. -/
def Commit (env : Env) (tx : Tx) : Except SqlError Store :=
  match env.commit with
  | some e => .error e
  | none => .ok tx.work

/-- The deferred `tx.Rollback()` (line 118) of a transaction that was not committed:
the committed store stays what it was. -/
def Rollback (db : Store) (_tx : Tx) : Store := db

/-- The rows of `items i JOIN vat_categories vc ON i.vatCategoryId = vc.id WHERE i.id = id`,
projected on `i.quantityInStock, i.priceCents, vc.rate` (lines 127-133). -/
def stockRecord (s : Store) (id : Int) : Option (Int × Int × Int) :=
  match s.items id with
  | none => none
  | some i =>
    match s.vat_categories i.vatCategoryId with
    | none => none
    | some rate => some (i.quantityInStock, i.priceCents, rate)

/-- The `SELECT ... FOR NO KEY UPDATE of i` with its `Scan` (lines 127-133). -/
def selectItem (env : Env) (tx : Tx) (id : Int) : RowResult (Int × Int × Int) :=
  match env.selectItem id with
  | some e => .failed e
  | none =>
    match stockRecord tx.work id with
    | none => .ErrNoRows
    | some r => .row r

/-- The effect of `UPDATE items SET quantityInStock = quantityInStock - quantity WHERE id = id`. -/
def decrementStock (s : Store) (quantity id : Int) : Store :=
  { s with items := fun k =>
      if k = id then
        (s.items k).map fun i => { i with quantityInStock := i.quantityInStock - quantity }
      else s.items k }

/-- The `UPDATE items ...` statement (lines 147-151). -/
def updateItem (env : Env) (tx : Tx) (quantity id : Int) : Except SqlError Tx :=
  match env.updateItem id with
  | some e => .error e
  | none => .ok ⟨decrementStock tx.work quantity id⟩

/-- The statement `INSERT INTO orders DEFAULT VALUES RETURNING id` with its `Scan`
(line 170). -/
def insertOrder (env : Env) (tx : Tx) : Except SqlError (Tx × Int) :=
  match env.insertOrder with
  | .error e => .error e
  | .ok id => .ok (⟨{ tx.work with orders := tx.work.orders ++ [id] }⟩, id)

/-- The statement `INSERT INTO order_items (orderId, itemId, quantity, priceCents, vatCents) VALUES ...`
(lines 176-179). -/
def insertOrderItem (env : Env) (tx : Tx) (orderId : Int) (item : SelectedItem) : Except SqlError Tx :=
  match env.insertOrderItem item.ID with
  | some e => .error e
  | none =>
    .ok ⟨{ tx.work with
            order_items := tx.work.order_items ++
              [⟨orderId, item.ID, item.Quantity, item.PriceCents, item.VATCents⟩] }⟩

/-! ## `PlaceOrder` (lines 93-191) -/

/-- The loop of lines 102-111 over the remaining items, with the map `seen`. -/
def validateItems : List OrderItem → (Int → Bool) → Option OrderError
  | [], _ => none
  | item :: rest, seen =>
    if item.Quantity < 1 then some .ErrInvalidItemQuantity
    else if seen item.ID then some .ErrDuplicateOrderItem
    else validateItems rest (fun k => if k = item.ID then true else seen k)

/-- Lines 95-111: the validation of the request; `none` when it passes. -/
def validate (orderToPlace : OrderToPlace) : Option OrderError :=
  if orderToPlace.Items.length = 0 then some .ErrEmptyOrderItems
  else validateItems orderToPlace.Items (fun _ => false)

/-- Line 157: `VATCents := (priceCents*int64(vatRate) + 50) / 100`. -/
def VATCents (priceCents vatRate : Int) : Int :=
  quoInt64 (addInt64 (mulInt64 priceCents vatRate) 50) 100

/-- The loop of lines 122-168 over the remaining items, from the current state of the
transaction and of `placedOrder`. -/
def reserveItems (env : Env) : List OrderItem → Tx → PlacedOrder → Except OrderError (Tx × PlacedOrder)
  | [], tx, placedOrder => .ok (tx, placedOrder)
  | item :: rest, tx, placedOrder =>
    match selectItem env tx item.ID with
    | .ErrNoRows => .error .ErrItemNotFound
    | .failed e => .error (.ErrFailedToPlaceOrder e)
    | .row (quantityInStock, priceCents, vatRate) =>
      if quantityInStock < item.Quantity then .error (.ErrInsufficientStock item.ID)
      else
        match updateItem env tx item.Quantity item.ID with
        | .error e => .error (.ErrFailedToPlaceOrder e)
        | .ok tx1 =>
          let vat := VATCents priceCents vatRate
          reserveItems env rest tx1
            { placedOrder with
              TotalPriceCents := addInt64 placedOrder.TotalPriceCents (mulInt64 item.Quantity priceCents)
              TotalVATCents := addInt64 placedOrder.TotalVATCents (mulInt64 item.Quantity vat)
              Items := placedOrder.Items ++ [⟨item.ID, priceCents, vat, item.Quantity⟩] }

/-- The loop of lines 175-184 over the remaining lines of `placedOrder.Items`. -/
def insertOrderItems (env : Env) (orderId : Int) : List SelectedItem → Tx → Except OrderError Tx
  | [], tx => .ok tx
  | item :: rest, tx =>
    match insertOrderItem env tx orderId item with
    | .error e => .error (.ErrFailedToPlaceOrder e)
    | .ok tx1 => insertOrderItems env orderId rest tx1

/-- Lines 120-184: what `PlaceOrder` does between `BeginTx` and `Commit`. -/
def placeOrderTx (env : Env) (tx : Tx) (orderToPlace : OrderToPlace) : Except OrderError (Tx × PlacedOrder) :=
  match reserveItems env orderToPlace.Items tx ⟨0, 0, 0, []⟩ with
  | .error e => .error e
  | .ok (tx1, placedOrder) =>
    match insertOrder env tx1 with
    | .error e => .error (.ErrFailedToPlaceOrder e)
    | .ok (tx2, id) =>
      let placedOrder := { placedOrder with ID := id }
      match insertOrderItems env id placedOrder.Items tx2 with
      | .error e => .error e
      | .ok tx3 => .ok (tx3, placedOrder)

/-- The function `PlaceOrder` (lines 93-191): the returned value and the committed store
afterwards. -/
def PlaceOrder (env : Env) (db : Store) (orderToPlace : OrderToPlace) :
    Except OrderError PlacedOrder × Store :=
  match validate orderToPlace with
  | some e => (.error e, db)
  | none =>
    match BeginTx env db with
    | .error e => (.error (.ErrFailedToPlaceOrder e), db)
    | .ok tx =>
      match placeOrderTx env tx orderToPlace with
      | .error e => (.error e, Rollback db tx)
      | .ok (tx1, placedOrder) =>
        match Commit env tx1 with
        | .error e => (.error (.ErrFailedToPlaceOrder e), Rollback db tx1)
        | .ok db1 => (.ok placedOrder, db1)

/-! ## Concrete stores used in the examples -/

/-- The catalogue of the example in the specification and of `orders_test.go`
(items 1 and 2 of its fixture): ten units of each, VAT category 1 at 22 percent. -/
def shop : Store :=
  ⟨fun id =>
      if id = 1 then some ⟨10, 99999, 1⟩ else if id = 2 then some ⟨10, 2550, 1⟩ else none,
    fun id => if id = 1 then some 22 else none, [], []⟩

/-- A storage engine that runs every statement and then fails to commit. -/
def commitFails : Env :=
  ⟨none, fun _ => none, fun _ => none, .ok 1, fun _ => none, some ⟨"commit failed"⟩⟩

/-- The request of `Test_PlaceOrder_Success`. -/
def basket21 : OrderToPlace := ⟨[⟨1, 2⟩, ⟨2, 1⟩]⟩

/-- The result of `Test_PlaceOrder_Success` when the new order gets identifier 1. -/
def placed21 : PlacedOrder :=
  ⟨1, 202548, 44561, [⟨1, 99999, 22000, 2⟩, ⟨2, 2550, 561, 1⟩]⟩

/-- A warehouse with two thousand million units of an item priced at ten thousand
million cents, VAT category 1 at 22 percent. -/
def bulkShop : Store :=
  ⟨fun id => if id = 1 then some ⟨2000000000, 10000000000, 1⟩ else none,
    fun id => if id = 1 then some 22 else none, [], []⟩

/-- A catalogue with a discount voucher of minus five hundred cents (item 1) and an
item priced at `10 ^ 18` cents (item 2), both in VAT category 1 at 22 percent. -/
def oddShop : Store :=
  ⟨fun id =>
      if id = 1 then some ⟨1, -500, 1⟩
      else if id = 2 then some ⟨1, 1000000000000000000, 1⟩ else none,
    fun id => if id = 1 then some 22 else none, [], []⟩

/-! ## Specification-side definitions -/

/-- Sum over the lines of `PriceCents × Quantity`, in the integers. -/
def sumPrice (lines : List SelectedItem) : Int :=
  (lines.map fun l => l.PriceCents * l.Quantity).sum

/-- Sum over the lines of `VATCents × Quantity`, in the integers. -/
def sumVAT (lines : List SelectedItem) : Int :=
  (lines.map fun l => l.VATCents * l.Quantity).sum

/-- The tax amount as the specification words it: `floor((unitPrice * ratePercent + 50) / 100)`. -/
def taxAmountSpec (unitPrice ratePercent : Int) : Int :=
  Int.fdiv (unitPrice * ratePercent + 50) 100

/-- The item offends against the validation rules, given the items `earlier` in the
list: its quantity is below 1, or an earlier item has its identifier. -/
def offends (earlier : List OrderItem) (item : OrderItem) : Prop :=
  item.Quantity < 1 ∨ ∃ e ∈ earlier, e.ID = item.ID

/-- The order line is the one `PlaceOrder` builds for the basket item from the stock
record of store `s`: same identifier and quantity, the unit price of the record, and
the VAT of line 157 on that price at the rate of the record. -/
def lineOf (s : Store) (item : OrderItem) (line : SelectedItem) : Prop :=
  line.ID = item.ID ∧ line.Quantity = item.Quantity ∧
    ∃ quantityInStock rate,
      stockRecord s item.ID = some (quantityInStock, line.PriceCents, rate) ∧
        line.VATCents = VATCents line.PriceCents rate

/-- The row of `order_items` written for a line of order `orderId`. -/
def orderItemRow (orderId : Int) (line : SelectedItem) : OrderItemRow :=
  ⟨orderId, line.ID, line.Quantity, line.PriceCents, line.VATCents⟩

/-- The basket line cannot be served from the store: no stock record for its item,
or fewer units in stock than requested. -/
def unavailable (s : Store) (item : OrderItem) : Bool :=
  match stockRecord s item.ID with
  | none => true
  | some (quantityInStock, _, _) => decide (quantityInStock < item.Quantity)

/-! ## Machine arithmetic -/

theorem wrapInt64_of_inInt64 {x : Int} (h : inInt64 x) : wrapInt64 x = x := by
  unfold inInt64 at h
  unfold wrapInt64
  omega

theorem inInt64_wrapInt64 (x : Int) : inInt64 (wrapInt64 x) := by
  unfold inInt64 wrapInt64
  omega

theorem wrapInt64_add_wrapInt64 (a b : Int) :
    wrapInt64 (wrapInt64 a + wrapInt64 b) = wrapInt64 (a + b) := by
  unfold wrapInt64
  omega

theorem VATCents_eq_taxAmountSpec {priceCents vatRate : Int}
    (h0 : 0 ≤ priceCents * vatRate + 50) (h1 : priceCents * vatRate + 50 < 2 ^ 63) :
    VATCents priceCents vatRate = taxAmountSpec priceCents vatRate := by
  have hm : mulInt64 priceCents vatRate = priceCents * vatRate :=
    wrapInt64_of_inInt64 ⟨by omega, by omega⟩
  have ha : addInt64 (priceCents * vatRate) 50 = priceCents * vatRate + 50 :=
    wrapInt64_of_inInt64 ⟨by omega, by omega⟩
  unfold VATCents taxAmountSpec quoInt64
  rw [hm, ha, Int.fdiv_eq_tdiv h0 (by decide)]

/-! ## Validation (lines 95-111) -/

theorem validateItems_eq_none_iff (l : List OrderItem) (seen : Int → Bool) :
    validateItems l seen = none ↔
      (∀ x ∈ l, 1 ≤ x.Quantity) ∧ (∀ x ∈ l, seen x.ID = false) ∧ (l.map OrderItem.ID).Nodup := by
  induction l generalizing seen with
  | nil => simp [validateItems]
  | cons item rest ih =>
    unfold validateItems
    by_cases hq : item.Quantity < 1
    · simp only [hq, if_true]
      constructor
      · intro h; cases h
      · rintro ⟨h, -, -⟩
        have := h item (List.mem_cons_self _ _)
        omega
    · cases hs : seen item.ID with
      | true =>
        simp only [hq, if_true, if_false]
        constructor
        · intro h; cases h
        · rintro ⟨-, h, -⟩
          have := h item (List.mem_cons_self _ _)
          rw [hs] at this; cases this
      | false =>
        simp only [hq, if_false, Bool.false_eq_true, ih]
        simp only [List.forall_mem_cons, List.map_cons, List.nodup_cons, List.mem_map, not_exists,
          not_and]
        constructor
        · rintro ⟨h1, h2, h3⟩
          refine ⟨⟨by omega, h1⟩, ⟨hs, ?_⟩, ⟨?_, h3⟩⟩
          · intro x hx
            have := h2 x hx
            by_cases hx1 : x.ID = item.ID
            · simp [hx1] at this
            · simpa [hx1] using this
          · intro x hx hx1
            have := h2 x hx
            simp [hx1] at this
        · rintro ⟨⟨-, h1⟩, ⟨-, h2⟩, ⟨h4, h3⟩⟩
          refine ⟨h1, ?_, h3⟩
          intro x hx
          have hx1 : x.ID ≠ item.ID := h4 x hx
          simpa [hx1] using h2 x hx

theorem validateItems_append_offender (pre : List OrderItem) (item : OrderItem)
    (post : List OrderItem) (seen : Int → Bool)
    (hpre : validateItems pre seen = none)
    (hoff : item.Quantity < 1 ∨ seen item.ID = true ∨ ∃ e ∈ pre, e.ID = item.ID) :
    validateItems (pre ++ item :: post) seen =
      some (if item.Quantity < 1 then .ErrInvalidItemQuantity else .ErrDuplicateOrderItem) := by
  induction pre generalizing seen with
  | nil =>
    simp only [List.nil_append, validateItems]
    by_cases hq : item.Quantity < 1
    · simp [hq]
    · have hs : seen item.ID = true := by
        rcases hoff with h | h | ⟨e, he, -⟩
        · exact absurd h hq
        · exact h
        · cases he
      simp [hq, hs]
  | cons x rest ih =>
    unfold validateItems at hpre
    by_cases hq : x.Quantity < 1
    · simp [hq] at hpre
    · by_cases hs : seen x.ID = true
      · simp [hq, hs] at hpre
      · simp only [hq, hs, if_false] at hpre
        simp only [List.cons_append, validateItems, hq, hs, if_false]
        apply ih _ hpre
        rcases hoff with h | h | ⟨e, he, hid⟩
        · exact Or.inl h
        · refine Or.inr (Or.inl ?_)
          simp [h]
        · rcases List.mem_cons.1 he with rfl | he
          · refine Or.inr (Or.inl ?_)
            simp [hid]
          · exact Or.inr (Or.inr ⟨e, he, hid⟩)

theorem no_offender_iff (pre : List OrderItem) :
    (∀ p x q, pre = p ++ x :: q → ¬ offends p x) ↔
      (∀ x ∈ pre, 1 ≤ x.Quantity) ∧ (pre.map OrderItem.ID).Nodup := by
  induction pre using List.reverseRecOn with
  | nil => simp
  | append_singleton init x ih =>
    constructor
    · intro h
      have hx : ¬ offends init x := h init x [] rfl
      have hinit := ih.1 (fun p y q hpy => h p y (q ++ [x]) (by simp [hpy]))
      unfold offends at hx
      simp only [not_or, not_exists, not_and, not_lt] at hx
      refine ⟨?_, ?_⟩
      · intro y hy
        rcases List.mem_append.1 hy with hy | hy
        · exact hinit.1 y hy
        · simp only [List.mem_singleton] at hy
          subst hy; exact hx.1
      · rw [List.map_append, List.nodup_append]
        refine ⟨hinit.2, by simp, ?_⟩
        intro a ha hb
        simp only [List.map_cons, List.map_nil, List.mem_singleton] at hb
        obtain ⟨e, he, hea⟩ := List.mem_map.1 ha
        exact hx.2 e he (hea.trans hb)
    · rintro ⟨hq, hnd⟩ p y q hpy
      rw [List.map_append, List.nodup_append] at hnd
      rcases List.eq_nil_or_concat q with rfl | ⟨q1, z, rfl⟩
      · have h1 : init ++ [x] = p ++ [y] := hpy
        have h3 : init = p := List.append_inj_left' h1 rfl
        have hxy : [x] = [y] := List.append_inj_right' h1 rfl
        simp only [List.cons.injEq, and_true] at hxy
        subst h3 hxy
        unfold offends
        simp only [not_or, not_exists, not_and, not_lt]
        refine ⟨hq x (by simp), ?_⟩
        intro e he hid
        exact hnd.2.2 (List.mem_map.2 ⟨e, he, hid⟩) (by simp)
      · have h1 : init ++ [x] = (p ++ y :: q1) ++ [z] := by
          rw [hpy]; simp
        have h2 : init = p ++ y :: q1 := List.append_inj_left' h1 rfl
        exact (ih.2 ⟨fun w hw => hq w (by simp [hw]), hnd.1⟩) p y q1 h2

/-! ## The statements of the transaction -/

theorem stockRecord_decrementStock (s : Store) (quantity id k : Int) :
    stockRecord (decrementStock s quantity id) k =
      (stockRecord s k).map fun r => (if k = id then r.1 - quantity else r.1, r.2.1, r.2.2) := by
  unfold stockRecord decrementStock
  by_cases hk : k = id
  · subst hk
    cases hi : s.items k with
    | none => simp [hi]
    | some i => cases hv : s.vat_categories i.vatCategoryId <;> simp [hi, hv]
  · cases hi : s.items k with
    | none => simp [hk, hi]
    | some i => cases hv : s.vat_categories i.vatCategoryId <;> simp [hk, hi, hv]

theorem stockRecord_decrementStock_of_ne (s : Store) (quantity : Int) {id k : Int} (h : k ≠ id) :
    stockRecord (decrementStock s quantity id) k = stockRecord s k := by
  rw [stockRecord_decrementStock]
  cases stockRecord s k <;> simp [h]

theorem exists_item_of_stockRecord {s : Store} {id q p r : Int}
    (h : stockRecord s id = some (q, p, r)) :
    ∃ row, s.items id = some row ∧ row.quantityInStock = q ∧ row.priceCents = p := by
  unfold stockRecord at h
  cases hi : s.items id with
  | none => simp [hi] at h
  | some i =>
    simp only [hi] at h
    cases hv : s.vat_categories i.vatCategoryId with
    | none => simp [hv] at h
    | some rate =>
      simp only [hv, Option.some.injEq, Prod.mk.injEq] at h
      exact ⟨i, rfl, h.1, h.2.1⟩

/-- One turn of the loop of lines 122-168 that reaches its end. -/
theorem reserveItems_cons_ok {env : Env} {item : OrderItem} {rest : List OrderItem} {tx : Tx}
    {po : PlacedOrder} {r : Tx × PlacedOrder}
    (h : reserveItems env (item :: rest) tx po = .ok r) :
    ∃ q p rate, stockRecord tx.work item.ID = some (q, p, rate) ∧ item.Quantity ≤ q ∧
      reserveItems env rest ⟨decrementStock tx.work item.Quantity item.ID⟩
        ⟨po.ID, addInt64 po.TotalPriceCents (mulInt64 item.Quantity p),
          addInt64 po.TotalVATCents (mulInt64 item.Quantity (VATCents p rate)),
          po.Items ++ [⟨item.ID, p, VATCents p rate, item.Quantity⟩]⟩ = .ok r := by
  unfold reserveItems selectItem updateItem at h
  cases hs : env.selectItem item.ID with
  | some e => simp [hs] at h
  | none =>
    simp only [hs] at h
    cases hr : stockRecord tx.work item.ID with
    | none => simp [hr] at h
    | some rec =>
      obtain ⟨q, p, rate⟩ := rec
      simp only [hr] at h
      by_cases hq : q < item.Quantity
      · simp [hq] at h
      · simp only [hq, if_false] at h
        cases hu : env.updateItem item.ID with
        | some e => simp [hu] at h
        | none =>
          simp only [hu] at h
          exact ⟨q, p, rate, rfl, by omega, h⟩

/-! ## The reservation loop (lines 122-168) when it completes -/

theorem lineOf_of_decrementStock {s : Store} {quantity id : Int} {item : OrderItem}
    {line : SelectedItem} (h : lineOf (decrementStock s quantity id) item line) :
    lineOf s item line := by
  obtain ⟨h1, h2, q, rate, h3, h4⟩ := h
  refine ⟨h1, h2, ?_⟩
  rw [stockRecord_decrementStock] at h3
  cases hr : stockRecord s item.ID with
  | none => simp [hr] at h3
  | some rec =>
    obtain ⟨q0, p0, r0⟩ := rec
    simp only [hr, Option.map_some', Option.some.injEq, Prod.mk.injEq] at h3
    refine ⟨q0, rate, ?_, h4⟩
    rw [h3.2.1, h3.2.2]

/-- The lines appended by the loop are those of the remaining basket items, one per
item and in the same order. -/
theorem reserveItems_lines {env : Env} (l : List OrderItem) {tx tx1 : Tx} {po po1 : PlacedOrder}
    (h : reserveItems env l tx po = .ok (tx1, po1)) :
    po1.ID = po.ID ∧ ∃ lines, po1.Items = po.Items ++ lines ∧ List.Forall₂ (lineOf tx.work) l lines := by
  induction l generalizing tx po with
  | nil =>
    simp only [reserveItems, Except.ok.injEq, Prod.mk.injEq] at h
    obtain ⟨-, rfl⟩ := h
    exact ⟨rfl, [], by simp, List.Forall₂.nil⟩
  | cons item rest ih =>
    obtain ⟨q, p, rate, hr, -, hrest⟩ := reserveItems_cons_ok h
    obtain ⟨hid, lines, hitems, hall⟩ := ih hrest
    refine ⟨hid, ⟨item.ID, p, VATCents p rate, item.Quantity⟩ :: lines, ?_, ?_⟩
    · rw [hitems]; simp
    · refine List.Forall₂.cons ⟨rfl, rfl, q, rate, hr, rfl⟩ ?_
      exact hall.imp fun _ _ hl => lineOf_of_decrementStock hl

theorem sumPrice_append_singleton (lines : List SelectedItem) (line : SelectedItem) :
    sumPrice (lines ++ [line]) = sumPrice lines + line.PriceCents * line.Quantity := by
  simp [sumPrice]

theorem sumVAT_append_singleton (lines : List SelectedItem) (line : SelectedItem) :
    sumVAT (lines ++ [line]) = sumVAT lines + line.VATCents * line.Quantity := by
  simp [sumVAT]

/-- The running totals are the exact sums over the lines so far, reduced to `int64`. -/
theorem reserveItems_totals {env : Env} (l : List OrderItem) {tx tx1 : Tx} {po po1 : PlacedOrder}
    (h : reserveItems env l tx po = .ok (tx1, po1))
    (hp : po.TotalPriceCents = wrapInt64 (sumPrice po.Items))
    (hv : po.TotalVATCents = wrapInt64 (sumVAT po.Items)) :
    po1.TotalPriceCents = wrapInt64 (sumPrice po1.Items) ∧
      po1.TotalVATCents = wrapInt64 (sumVAT po1.Items) := by
  induction l generalizing tx po with
  | nil =>
    simp only [reserveItems, Except.ok.injEq, Prod.mk.injEq] at h
    obtain ⟨-, rfl⟩ := h
    exact ⟨hp, hv⟩
  | cons item rest ih =>
    obtain ⟨q, p, rate, -, -, hrest⟩ := reserveItems_cons_ok h
    apply ih hrest
    · show addInt64 po.TotalPriceCents (mulInt64 item.Quantity p) = _
      rw [sumPrice_append_singleton, hp, addInt64, mulInt64, wrapInt64_add_wrapInt64,
        Int.mul_comm item.Quantity p]
    · show addInt64 po.TotalVATCents (mulInt64 item.Quantity (VATCents p rate)) = _
      rw [sumVAT_append_singleton, hv, addInt64, mulInt64, wrapInt64_add_wrapInt64,
        Int.mul_comm item.Quantity (VATCents p rate)]

/-- The working store after the loop: every requested item lost exactly its requested
quantity, nothing else changed. -/
theorem reserveItems_store {env : Env} (l : List OrderItem) {tx tx1 : Tx} {po po1 : PlacedOrder}
    (h : reserveItems env l tx po = .ok (tx1, po1)) (hnd : (l.map OrderItem.ID).Nodup) :
    (∀ item ∈ l, ∃ row, tx.work.items item.ID = some row ∧ item.Quantity ≤ row.quantityInStock ∧
        tx1.work.items item.ID =
          some ⟨row.quantityInStock - item.Quantity, row.priceCents, row.vatCategoryId⟩) ∧
      (∀ k, k ∉ l.map OrderItem.ID → tx1.work.items k = tx.work.items k) ∧
      tx1.work.vat_categories = tx.work.vat_categories ∧ tx1.work.orders = tx.work.orders ∧
      tx1.work.order_items = tx.work.order_items := by
  induction l generalizing tx po with
  | nil =>
    simp only [reserveItems, Except.ok.injEq, Prod.mk.injEq] at h
    obtain ⟨rfl, -⟩ := h
    simp
  | cons item rest ih =>
    obtain ⟨q, p, rate, hr, hq, hrest⟩ := reserveItems_cons_ok h
    rw [List.map_cons, List.nodup_cons] at hnd
    obtain ⟨h1, h2, h3, h4, h5⟩ := ih hrest hnd.2
    obtain ⟨row, hrow, hrq, -⟩ := exists_item_of_stockRecord hr
    refine ⟨?_, ?_, h3, h4, h5⟩
    · intro x hx
      rcases List.mem_cons.1 hx with rfl | hx
      · refine ⟨row, hrow, by omega, ?_⟩
        rw [h2 _ hnd.1]
        simp [decrementStock, hrow]
      · obtain ⟨row1, hrow1, hq1, hfin⟩ := h1 x hx
        have hne : x.ID ≠ item.ID := fun heq => hnd.1 (List.mem_map.2 ⟨x, hx, heq⟩)
        refine ⟨row1, ?_, hq1, hfin⟩
        simpa [decrementStock, hne] using hrow1
    · intro k hk
      simp only [List.map_cons, List.mem_cons, not_or] at hk
      rw [h2 k hk.2]
      simp [decrementStock, hk.1]

/-! ## Persisting the order (lines 170-184) -/

theorem insertOrderItems_ok {env : Env} {orderId : Int} (lines : List SelectedItem) {tx tx1 : Tx}
    (h : insertOrderItems env orderId lines tx = .ok tx1) :
    tx1.work.items = tx.work.items ∧ tx1.work.vat_categories = tx.work.vat_categories ∧
      tx1.work.orders = tx.work.orders ∧
      tx1.work.order_items = tx.work.order_items ++ lines.map (orderItemRow orderId) := by
  induction lines generalizing tx with
  | nil =>
    simp only [insertOrderItems, Except.ok.injEq] at h
    subst h
    simp
  | cons line rest ih =>
    unfold insertOrderItems insertOrderItem at h
    cases he : env.insertOrderItem line.ID with
    | some e => simp [he] at h
    | none =>
      simp only [he] at h
      obtain ⟨h1, h2, h3, h4⟩ := ih h
      refine ⟨h1, h2, h3, ?_⟩
      rw [h4]
      simp [orderItemRow]

theorem insertOrderItems_of_noFaults {env : Env} (hf : ∀ id, env.insertOrderItem id = none)
    (orderId : Int) (lines : List SelectedItem) (tx : Tx) :
    ∃ tx1, insertOrderItems env orderId lines tx = .ok tx1 := by
  induction lines generalizing tx with
  | nil => exact ⟨tx, rfl⟩
  | cons line rest ih =>
    unfold insertOrderItems insertOrderItem
    simp only [hf]
    exact ih _

/-! ## `PlaceOrder` as a whole -/

/-- What a successful call went through. -/
theorem PlaceOrder_ok_inv {env : Env} {db db1 : Store} {orderToPlace : OrderToPlace}
    {o : PlacedOrder} (h : PlaceOrder env db orderToPlace = (.ok o, db1)) :
    validate orderToPlace = none ∧
      ∃ tx1 po id, reserveItems env orderToPlace.Items ⟨db⟩ ⟨0, 0, 0, []⟩ = .ok (tx1, po) ∧
        env.insertOrder = .ok id ∧
        o = ⟨id, po.TotalPriceCents, po.TotalVATCents, po.Items⟩ ∧
        db1.items = tx1.work.items ∧ db1.vat_categories = tx1.work.vat_categories ∧
        db1.orders = tx1.work.orders ++ [id] ∧
        db1.order_items = tx1.work.order_items ++ po.Items.map (orderItemRow id) := by
  unfold PlaceOrder at h
  cases hv : validate orderToPlace with
  | some e => simp [hv] at h
  | none =>
    refine ⟨rfl, ?_⟩
    simp only [hv] at h
    unfold BeginTx at h
    cases hb : env.beginTx with
    | some e => simp [hb] at h
    | none =>
      simp only [hb] at h
      unfold placeOrderTx at h
      cases hr : reserveItems env orderToPlace.Items ⟨db⟩ ⟨0, 0, 0, []⟩ with
      | error e => simp [hr] at h
      | ok r =>
        obtain ⟨tx1, po⟩ := r
        simp only [hr] at h
        unfold insertOrder at h
        cases hi : env.insertOrder with
        | error e => simp [hi] at h
        | ok id =>
          simp only [hi] at h
          cases hl : insertOrderItems env id po.Items
              ⟨⟨tx1.work.items, tx1.work.vat_categories, tx1.work.orders ++ [id],
                tx1.work.order_items⟩⟩ with
          | error e => simp [hl] at h
          | ok tx3 =>
            simp only [hl] at h
            unfold Commit at h
            cases hc : env.commit with
            | some e => simp [hc] at h
            | none =>
              simp only [hc, Prod.mk.injEq, Except.ok.injEq] at h
              obtain ⟨ho, hdb⟩ := h
              obtain ⟨h1, h2, h3, h4⟩ := insertOrderItems_ok _ hl
              refine ⟨tx1, po, id, rfl, rfl, ho.symm, ?_, ?_, ?_, ?_⟩
              · rw [← hdb, h1]
              · rw [← hdb, h2]
              · rw [← hdb, h3]
              · rw [← hdb, h4]

/-- When no statement fails, a completed reservation loop leads to a placed order. -/
theorem PlaceOrder_ok_of_reserveItems {env : Env} {db : Store} {orderToPlace : OrderToPlace}
    (hv : validate orderToPlace = none) (hf : env.noFaults) {r : Tx × PlacedOrder}
    (hr : reserveItems env orderToPlace.Items ⟨db⟩ ⟨0, 0, 0, []⟩ = .ok r) :
    ∃ o db1, PlaceOrder env db orderToPlace = (.ok o, db1) := by
  obtain ⟨hb, -, -, ⟨id, hi⟩, hl, hc⟩ := hf
  obtain ⟨tx1, po⟩ := r
  obtain ⟨tx3, h3⟩ := insertOrderItems_of_noFaults hl id po.Items
    ⟨⟨tx1.work.items, tx1.work.vat_categories, tx1.work.orders ++ [id], tx1.work.order_items⟩⟩
  refine ⟨⟨id, po.TotalPriceCents, po.TotalVATCents, po.Items⟩, tx3.work, ?_⟩
  unfold PlaceOrder
  simp only [hv, BeginTx, hb, placeOrderTx, hr, insertOrder, hi, h3, Commit, hc]

/-- A failing reservation loop is what `PlaceOrder` reports, with the store as before. -/
theorem PlaceOrder_error_of_reserveItems {env : Env} {db : Store} {orderToPlace : OrderToPlace}
    (hv : validate orderToPlace = none) (hb : env.beginTx = none) {e : OrderError}
    (hr : reserveItems env orderToPlace.Items ⟨db⟩ ⟨0, 0, 0, []⟩ = .error e) :
    PlaceOrder env db orderToPlace = (.error e, db) := by
  unfold PlaceOrder
  simp only [hv, BeginTx, hb, placeOrderTx, hr, Rollback]

/-- The reservation loop when neither the `SELECT` nor the `UPDATE` fails, on items
with pairwise distinct identifiers: it stops at the first item that store `s` cannot
serve, where `s` agrees with the working store on the remaining items. -/
theorem reserveItems_of_noFaults {env : Env} (hsel : ∀ id, env.selectItem id = none)
    (hupd : ∀ id, env.updateItem id = none) (s : Store) (l : List OrderItem) (tx : Tx)
    (po : PlacedOrder) (hnd : (l.map OrderItem.ID).Nodup)
    (hs : ∀ x ∈ l, stockRecord tx.work x.ID = stockRecord s x.ID) :
    (∀ item, l.find? (unavailable s) = some item →
        reserveItems env l tx po =
          .error (if stockRecord s item.ID = none then .ErrItemNotFound
            else .ErrInsufficientStock item.ID)) ∧
      (l.find? (unavailable s) = none → ∃ r, reserveItems env l tx po = .ok r) := by
  induction l generalizing tx po with
  | nil => exact ⟨by simp, fun _ => ⟨_, rfl⟩⟩
  | cons item rest ih =>
    rw [List.map_cons, List.nodup_cons] at hnd
    have hitem := hs item (List.mem_cons_self _ _)
    unfold reserveItems selectItem updateItem
    simp only [hsel, hupd, List.find?_cons]
    cases hr : stockRecord s item.ID with
    | none =>
      have hu : unavailable s item = true := by simp [unavailable, hr]
      rw [hitem, hr]
      simp [hu, hr]
    | some rec =>
      obtain ⟨q, p, rate⟩ := rec
      rw [hitem, hr]
      by_cases hq : q < item.Quantity
      · have hu : unavailable s item = true := by simp [unavailable, hr, hq]
        simp [hu, hr, hq]
      · have hu : unavailable s item = false := by simp [unavailable, hr, hq]
        simp only [hu, hq, if_false]
        apply ih _ _ hnd.2
        intro x hx
        have hne : x.ID ≠ item.ID := fun heq => hnd.1 (List.mem_map.2 ⟨x, hx, heq⟩)
        show stockRecord (decrementStock tx.work item.Quantity item.ID) x.ID = _
        rw [stockRecord_decrementStock_of_ne _ _ hne]
        exact hs x (List.mem_cons_of_mem _ hx)

theorem Env.eq_ok_of_noFaults {env : Env} (hf : env.noFaults) : ∃ orderId, env = Env.ok orderId := by
  obtain ⟨hb, hs, hu, ⟨id, hi⟩, hl, hc⟩ := hf
  refine ⟨id, ?_⟩
  cases env
  simp only [Env.ok, Env.mk.injEq]
  exact ⟨hb, funext hs, funext hu, hi, funext hl, hc⟩

theorem Env.noFaults_ok (orderId : Int) : (Env.ok orderId).noFaults :=
  ⟨rfl, fun _ => rfl, fun _ => rfl, ⟨orderId, rfl⟩, fun _ => rfl, rfl⟩

theorem forall₂_getElem? {α β : Type} {R : α → β → Prop} {l1 : List α} {l2 : List β}
    (h : List.Forall₂ R l1 l2) (i : Nat) (a : α) (ha : l1[i]? = some a) :
    ∃ b, l2[i]? = some b ∧ R a b := by
  induction h generalizing i with
  | nil => simp at ha
  | cons hab _ ih =>
    cases i with
    | zero =>
      simp only [List.getElem?_cons_zero, Option.some.injEq] at ha
      subst ha
      exact ⟨_, by simp, hab⟩
    | succ j =>
      simp only [List.getElem?_cons_succ] at ha ⊢
      exact ih j ha

theorem forall₂_mem_right {α β : Type} {R : α → β → Prop} {l1 : List α} {l2 : List β}
    (h : List.Forall₂ R l1 l2) (b : β) (hb : b ∈ l2) : ∃ a ∈ l1, R a b := by
  induction h with
  | nil => cases hb
  | cons hab _ ih =>
    rcases List.mem_cons.1 hb with rfl | hb
    · exact ⟨_, List.mem_cons_self _ _, hab⟩
    · obtain ⟨a, ha, hr⟩ := ih hb
      exact ⟨a, List.mem_cons_of_mem _ ha, hr⟩

/-- The lines of a placed order, against the basket and the store before the call. -/
theorem PlaceOrder_lines {env : Env} {db db1 : Store} {orderToPlace : OrderToPlace}
    {o : PlacedOrder} (h : PlaceOrder env db orderToPlace = (.ok o, db1)) :
    List.Forall₂ (lineOf db) orderToPlace.Items o.Items := by
  obtain ⟨-, tx1, po, id, hr, -, ho, -⟩ := PlaceOrder_ok_inv h
  obtain ⟨-, lines, hitems, hall⟩ := reserveItems_lines _ hr
  subst ho
  simp only [List.nil_append] at hitems
  show List.Forall₂ _ _ po.Items
  rw [hitems]
  exact hall

/-! ## The claims -/

/-- C1: when `PlaceOrder` succeeds, the committed store holds, for each basket item,
the row it held before with `quantityInStock` lowered by exactly the requested
quantity, and the row of every item that is not in the basket is unchanged.  (A
successful call implies the basket is non-empty, with quantities at least 1 and
pairwise distinct identifiers.) -/
theorem PlaceOrder_stock_reduced (env : Env) (db db1 : Store) (orderToPlace : OrderToPlace)
    (o : PlacedOrder) (h : PlaceOrder env db orderToPlace = (.ok o, db1)) :
    (∀ item ∈ orderToPlace.Items, ∃ row, db.items item.ID = some row ∧
        db1.items item.ID =
          some ⟨row.quantityInStock - item.Quantity, row.priceCents, row.vatCategoryId⟩) ∧
      (∀ k, k ∉ orderToPlace.Items.map OrderItem.ID → db1.items k = db.items k) := by
  obtain ⟨hv, tx1, po, id, hr, -, -, hitems, -⟩ := PlaceOrder_ok_inv h
  have hnd : (orderToPlace.Items.map OrderItem.ID).Nodup := by
    unfold validate at hv
    split at hv
    · cases hv
    · exact ((validateItems_eq_none_iff _ _).1 hv).2.2
  obtain ⟨h1, h2, -⟩ := reserveItems_store _ hr hnd
  rw [hitems]
  refine ⟨fun item hitem => ?_, h2⟩
  obtain ⟨row, hrow, -, hfin⟩ := h1 item hitem
  exact ⟨row, hrow, hfin⟩

/-- C1 at the request of `Test_PlaceOrder_Success`: item 1 goes from 10 to 8 units and
item 3, which is not requested, is left as it was. -/
theorem PlaceOrder_stock_reduced_witness :
    PlaceOrder (Env.ok 1) shop basket21 =
        (.ok placed21, (PlaceOrder (Env.ok 1) shop basket21).2) ∧
      shop.items 1 = some ⟨10, 99999, 1⟩ ∧
      (PlaceOrder (Env.ok 1) shop basket21).2.items 1 = some ⟨10 - 2, 99999, 1⟩ ∧
      (PlaceOrder (Env.ok 1) shop basket21).2.items 3 = shop.items 3 := by
  have h := PlaceOrder_stock_reduced (Env.ok 1) shop (PlaceOrder (Env.ok 1) shop basket21).2
    basket21 placed21 rfl
  obtain ⟨row, hrow, hfin⟩ := h.1 ⟨1, 2⟩ (by decide)
  have h10 : shop.items 1 = some ⟨10, 99999, 1⟩ := rfl
  have hrow10 : row = ⟨10, 99999, 1⟩ := by
    rw [h10] at hrow
    exact (Option.some.inj hrow).symm
  subst hrow10
  exact ⟨rfl, h10, hfin, h.2 3 (by decide)⟩

/-- C2: whenever `PlaceOrder` returns an error, whichever it is and wherever it
arises (validation, `BeginTx`, any turn of the reservation loop, the insertion of the
order or of one of its lines, `Commit`), the committed store afterwards is the store
before the call. -/
theorem PlaceOrder_error_store_unchanged (env : Env) (db db1 : Store)
    (orderToPlace : OrderToPlace) (e : OrderError)
    (h : PlaceOrder env db orderToPlace = (.error e, db1)) : db1 = db := by
  unfold PlaceOrder at h
  cases hv : validate orderToPlace with
  | some e1 =>
    simp only [hv, Prod.mk.injEq] at h
    exact h.2.symm
  | none =>
    simp only [hv] at h
    cases hb : BeginTx env db with
    | error e1 =>
      simp only [hb, Prod.mk.injEq] at h
      exact h.2.symm
    | ok tx =>
      simp only [hb] at h
      cases hp : placeOrderTx env tx orderToPlace with
      | error e1 =>
        simp only [hp, Prod.mk.injEq, Rollback] at h
        exact h.2.symm
      | ok r =>
        obtain ⟨tx1, po⟩ := r
        simp only [hp] at h
        cases hc : Commit env tx1 with
        | error e1 =>
          simp only [hc, Prod.mk.injEq, Rollback] at h
          exact h.2.symm
        | ok db2 => simp [hc] at h

/-- C2 where the second line fails after the first one was decremented (ten units of
item 2 are in stock and eleven are requested), and where everything succeeds up to a
failing `Commit`. -/
theorem PlaceOrder_error_store_unchanged_witness :
    PlaceOrder (Env.ok 1) shop ⟨[⟨1, 2⟩, ⟨2, 11⟩]⟩ =
        (.error (.ErrInsufficientStock 2), (PlaceOrder (Env.ok 1) shop ⟨[⟨1, 2⟩, ⟨2, 11⟩]⟩).2) ∧
      (PlaceOrder (Env.ok 1) shop ⟨[⟨1, 2⟩, ⟨2, 11⟩]⟩).2 = shop ∧
      PlaceOrder commitFails shop basket21 =
        (.error (.ErrFailedToPlaceOrder ⟨"commit failed"⟩),
          (PlaceOrder commitFails shop basket21).2) ∧
      (PlaceOrder commitFails shop basket21).2 = shop :=
  ⟨rfl, PlaceOrder_error_store_unchanged (Env.ok 1) shop _ ⟨[⟨1, 2⟩, ⟨2, 11⟩]⟩
    (.ErrInsufficientStock 2) rfl, rfl,
    PlaceOrder_error_store_unchanged commitFails shop _ basket21
      (.ErrFailedToPlaceOrder ⟨"commit failed"⟩) rfl⟩

/-- C3 as stated fails: a thousand million units at ten thousand million cents each
are placed with `TotalPriceCents = -8446744073709551616`, while the sum over the lines
of `PriceCents × Quantity` is `10 ^ 19`. -/
theorem PlaceOrder_total_overflows :
    (PlaceOrder (Env.ok 1) bulkShop ⟨[⟨1, 1000000000⟩]⟩).1 =
        .ok ⟨1, -8446744073709551616, 2200000000000000000,
          [⟨1, 10000000000, 2200000000, 1000000000⟩]⟩ ∧
      sumPrice [⟨1, 10000000000, 2200000000, 1000000000⟩] = 10000000000000000000 :=
  ⟨rfl, by decide⟩

/-- C3, amended: on success each total is the sum over the order's lines (of
`PriceCents × Quantity`, of `VATCents × Quantity`) reduced to the `int64` range by
two's-complement wrap-around, hence equal to that sum whenever the sum lies in the
`int64` range. -/
theorem PlaceOrder_totals (env : Env) (db db1 : Store) (orderToPlace : OrderToPlace)
    (o : PlacedOrder) (h : PlaceOrder env db orderToPlace = (.ok o, db1)) :
    o.TotalPriceCents = wrapInt64 (sumPrice o.Items) ∧
      o.TotalVATCents = wrapInt64 (sumVAT o.Items) ∧
      (inInt64 (sumPrice o.Items) → o.TotalPriceCents = sumPrice o.Items) ∧
      (inInt64 (sumVAT o.Items) → o.TotalVATCents = sumVAT o.Items) := by
  obtain ⟨-, tx1, po, id, hr, -, ho, -⟩ := PlaceOrder_ok_inv h
  obtain ⟨hp, hv⟩ := reserveItems_totals _ hr (by decide) (by decide)
  subst ho
  refine ⟨hp, hv, fun hin => ?_, fun hin => ?_⟩
  · exact hp.trans (wrapInt64_of_inInt64 hin)
  · exact hv.trans (wrapInt64_of_inInt64 hin)

/-- C3, amended, at the request of `Test_PlaceOrder_Success`: both sums are in range
and the totals are the sums. -/
theorem PlaceOrder_totals_witness :
    PlaceOrder (Env.ok 1) shop basket21 =
        (.ok placed21, (PlaceOrder (Env.ok 1) shop basket21).2) ∧
      placed21.TotalPriceCents = sumPrice placed21.Items ∧
      placed21.TotalVATCents = sumVAT placed21.Items :=
  have h := PlaceOrder_totals (Env.ok 1) shop (PlaceOrder (Env.ok 1) shop basket21).2
    basket21 placed21 rfl
  ⟨rfl, h.2.2.1 (by decide), h.2.2.2 (by decide)⟩

/-- C4 as stated fails: for the voucher at minus 500 cents and 22 percent the line gets
`VATCents = -109` where the floor formula gives `-110` (Go's `/` truncates toward
zero), and for the price `10 ^ 18` at 22 percent the `int64` product wraps around and
the line gets `35532559262904484` where the formula gives `220000000000000000`. -/
theorem PlaceOrder_VATCents_not_floor :
    (PlaceOrder (Env.ok 1) oddShop ⟨[⟨1, 1⟩, ⟨2, 1⟩]⟩).1 =
        .ok ⟨1, 999999999999999500, 35532559262904375,
          [⟨1, -500, -109, 1⟩, ⟨2, 1000000000000000000, 35532559262904484, 1⟩]⟩ ∧
      taxAmountSpec (-500) 22 = -110 ∧
      taxAmountSpec 1000000000000000000 22 = 220000000000000000 :=
  ⟨rfl, by decide, by decide⟩

/-- C4, amended: every line of a placed order carries the unit price of its item's
stock record, and whenever `unitPrice × ratePercent + 50` is neither negative nor above
the largest `int64`, its `VATCents` is `floor((unitPrice × ratePercent + 50) / 100)`;
so it is for (100, 10), (99999, 22) and (5, 50), which give 10, 22000 and 3. -/
theorem PlaceOrder_VATCents_eq_floor (env : Env) (db db1 : Store) (orderToPlace : OrderToPlace)
    (o : PlacedOrder) (h : PlaceOrder env db orderToPlace = (.ok o, db1)) :
    (∀ line ∈ o.Items, ∃ quantityInStock rate,
        stockRecord db line.ID = some (quantityInStock, line.PriceCents, rate) ∧
          (0 ≤ line.PriceCents * rate + 50 → line.PriceCents * rate + 50 < 2 ^ 63 →
            line.VATCents = taxAmountSpec line.PriceCents rate)) ∧
      VATCents 100 10 = 10 ∧ VATCents 99999 22 = 22000 ∧ VATCents 5 50 = 3 := by
  refine ⟨fun line hline => ?_, by decide, by decide, by decide⟩
  obtain ⟨item, -, hid, -, q, rate, hrec, hvat⟩ := forall₂_mem_right (PlaceOrder_lines h) line hline
  refine ⟨q, rate, by rw [hid]; exact hrec, fun h0 h1 => ?_⟩
  rw [hvat]
  exact VATCents_eq_taxAmountSpec h0 h1

/-- C4, amended, at the request of `Test_PlaceOrder_Success`: the line of item 2, at
2550 cents and 22 percent, has `VATCents = floor(56150 / 100) = 561`. -/
theorem PlaceOrder_VATCents_eq_floor_witness :
    PlaceOrder (Env.ok 1) shop basket21 =
        (.ok placed21, (PlaceOrder (Env.ok 1) shop basket21).2) ∧
      stockRecord shop 2 = some (10, 2550, 22) ∧ (561 : Int) = taxAmountSpec 2550 22 := by
  have h := PlaceOrder_VATCents_eq_floor (Env.ok 1) shop
    (PlaceOrder (Env.ok 1) shop basket21).2 basket21 placed21 rfl
  obtain ⟨q, rate, hrec, hfloor⟩ := h.1 ⟨2, 2550, 561, 1⟩ (by decide)
  have h22 : stockRecord shop 2 = some (10, 2550, 22) := rfl
  have hrate : rate = 22 := by
    have hrec2 : stockRecord shop 2 = some (q, 2550, rate) := hrec
    rw [h22] at hrec2
    simp only [Option.some.injEq, Prod.mk.injEq] at hrec2
    exact hrec2.2.2.symm
  subst hrate
  exact ⟨rfl, h22, hfloor (by decide) (by decide)⟩

/-- C5: validation reports `ErrEmptyOrderItems` on the empty list; otherwise, at the
first item (none of the items before it offends) whose quantity is below 1 or whose
identifier is that of an earlier item, `ErrInvalidItemQuantity` when its quantity is
below 1 and `ErrDuplicateOrderItem` otherwise; it passes exactly when the list is
non-empty, every quantity is at least 1 and the identifiers are pairwise distinct; and
a validation error is what `PlaceOrder` returns, whatever the storage engine does. -/
theorem validate_first_offender (orderToPlace : OrderToPlace) :
    (orderToPlace.Items = [] → validate orderToPlace = some .ErrEmptyOrderItems) ∧
      (∀ pre item post, orderToPlace.Items = pre ++ item :: post →
        (∀ p x q, pre = p ++ x :: q → ¬ offends p x) → offends pre item →
        validate orderToPlace =
          some (if item.Quantity < 1 then .ErrInvalidItemQuantity else .ErrDuplicateOrderItem)) ∧
      (validate orderToPlace = none ↔
        orderToPlace.Items ≠ [] ∧ (∀ x ∈ orderToPlace.Items, 1 ≤ x.Quantity) ∧
          (orderToPlace.Items.map OrderItem.ID).Nodup) ∧
      (∀ e, validate orderToPlace = some e →
        ∀ env db, PlaceOrder env db orderToPlace = (.error e, db)) := by
  refine ⟨?_, ?_, ?_, ?_⟩
  · intro h
    simp [validate, h]
  · intro pre item post hitems hpre hoff
    have hlen : ¬ orderToPlace.Items.length = 0 := by simp [hitems]
    obtain ⟨hq, hnd⟩ := (no_offender_iff pre).1 hpre
    have hnone : validateItems pre (fun _ => false) = none :=
      (validateItems_eq_none_iff _ _).2 ⟨hq, fun _ _ => rfl, hnd⟩
    unfold validate
    rw [if_neg hlen, hitems]
    apply validateItems_append_offender _ _ _ _ hnone
    rcases hoff with h | h
    · exact Or.inl h
    · exact Or.inr (Or.inr h)
  · unfold validate
    by_cases hlen : orderToPlace.Items.length = 0
    · have hnil : orderToPlace.Items = [] := List.length_eq_zero.1 hlen
      simp [hnil]
    · have hne : orderToPlace.Items ≠ [] := fun h => hlen (by simp [h])
      rw [if_neg hlen, validateItems_eq_none_iff]
      constructor
      · rintro ⟨h1, -, h3⟩
        exact ⟨hne, h1, h3⟩
      · rintro ⟨-, h1, h3⟩
        exact ⟨h1, fun _ _ => rfl, h3⟩
  · intro e he env db
    simp only [PlaceOrder, he]

/-- C5 on the requests of `Test_PlaceOrder_EmptyItems`, `Test_PlaceOrder_RepeatedItem`
and `Test_PlaceOrder_NegativeQuantity`, and on a list whose second item both repeats
the first and has quantity 0, where the quantity is what is reported. -/
theorem validate_first_offender_witness :
    validate ⟨[]⟩ = some .ErrEmptyOrderItems ∧
      validate ⟨[⟨1, 2⟩, ⟨1, 4⟩]⟩ = some .ErrDuplicateOrderItem ∧
      validate ⟨[⟨1, -5⟩]⟩ = some .ErrInvalidItemQuantity ∧
      validate ⟨[⟨1, 2⟩, ⟨1, 0⟩, ⟨3, 1⟩]⟩ = some .ErrInvalidItemQuantity :=
  ⟨(validate_first_offender ⟨[]⟩).1 rfl,
    (validate_first_offender ⟨[⟨1, 2⟩, ⟨1, 4⟩]⟩).2.1 [⟨1, 2⟩] ⟨1, 4⟩ [] rfl
      ((no_offender_iff _).2 (by decide)) (Or.inr ⟨⟨1, 2⟩, by decide, rfl⟩),
    (validate_first_offender ⟨[⟨1, -5⟩]⟩).2.1 [] ⟨1, -5⟩ [] rfl
      ((no_offender_iff _).2 (by decide)) (Or.inl (by decide)),
    (validate_first_offender ⟨[⟨1, 2⟩, ⟨1, 0⟩, ⟨3, 1⟩]⟩).2.1 [⟨1, 2⟩] ⟨1, 0⟩ [⟨3, 1⟩] rfl
      ((no_offender_iff _).2 (by decide)) (Or.inl (by decide))⟩

/-- C6: for a basket that passes validation and a storage engine none of whose
statements fails, `PlaceOrder` is decided by the first basket line that the store
cannot serve: `ErrItemNotFound` when that line's item has no stock record,
`ErrInsufficientStock` for that item when it has one with too few units, in both cases
with the store unchanged; and it succeeds exactly when no basket line is of that kind,
a line asking for the whole stock of its item not being of that kind. -/
theorem PlaceOrder_first_unavailable (env : Env) (db : Store) (orderToPlace : OrderToPlace)
    (hv : validate orderToPlace = none) (hf : env.noFaults) :
    (∀ item, orderToPlace.Items.find? (unavailable db) = some item →
        stockRecord db item.ID = none →
        PlaceOrder env db orderToPlace = (.error .ErrItemNotFound, db)) ∧
      (∀ item, orderToPlace.Items.find? (unavailable db) = some item →
        stockRecord db item.ID ≠ none →
        PlaceOrder env db orderToPlace = (.error (.ErrInsufficientStock item.ID), db)) ∧
      ((∃ o db1, PlaceOrder env db orderToPlace = (.ok o, db1)) ↔
        ∀ item ∈ orderToPlace.Items, unavailable db item = false) ∧
      (∀ item quantityInStock priceCents rate,
        stockRecord db item.ID = some (quantityInStock, priceCents, rate) →
        quantityInStock = item.Quantity → unavailable db item = false) := by
  have hnd : (orderToPlace.Items.map OrderItem.ID).Nodup := by
    unfold validate at hv
    split at hv
    · cases hv
    · exact ((validateItems_eq_none_iff _ _).1 hv).2.2
  obtain ⟨herr, hok⟩ := reserveItems_of_noFaults hf.2.1 hf.2.2.1 db orderToPlace.Items ⟨db⟩
    ⟨0, 0, 0, []⟩ hnd (fun _ _ => rfl)
  refine ⟨?_, ?_, ?_, ?_⟩
  · intro item hfind hnone
    have := herr item hfind
    rw [if_pos hnone] at this
    exact PlaceOrder_error_of_reserveItems hv hf.1 this
  · intro item hfind hsome
    have := herr item hfind
    rw [if_neg hsome] at this
    exact PlaceOrder_error_of_reserveItems hv hf.1 this
  · constructor
    · rintro ⟨o, db1, h⟩ item hitem
      cases hfind : orderToPlace.Items.find? (unavailable db) with
      | none =>
        have := List.find?_eq_none.1 hfind item hitem
        simpa using this
      | some bad =>
        have hbad := PlaceOrder_error_of_reserveItems hv hf.1 (herr bad hfind)
        rw [h] at hbad
        simp at hbad
    · intro hall
      have hfind : orderToPlace.Items.find? (unavailable db) = none := by
        rw [List.find?_eq_none]
        intro x hx
        simp [hall x hx]
      obtain ⟨r, hr⟩ := hok hfind
      exact PlaceOrder_ok_of_reserveItems hv hf hr
  · intro item q p rate hrec hq
    simp [unavailable, hrec, hq]

/-- C6 on the test catalogue: the first line takes the whole stock of item 1 and is
accepted, the second asks for eleven of the ten units of item 2, the third names an
item that does not exist; the call fails with `ErrInsufficientStock` for item 2. -/
theorem PlaceOrder_first_unavailable_witness :
    validate ⟨[⟨1, 10⟩, ⟨2, 11⟩, ⟨999, 1⟩]⟩ = none ∧ (Env.ok 1).noFaults ∧
      PlaceOrder (Env.ok 1) shop ⟨[⟨1, 10⟩, ⟨2, 11⟩, ⟨999, 1⟩]⟩ =
        (.error (.ErrInsufficientStock 2), shop) :=
  ⟨by decide, Env.noFaults_ok 1,
    (PlaceOrder_first_unavailable (Env.ok 1) shop ⟨[⟨1, 10⟩, ⟨2, 11⟩, ⟨999, 1⟩]⟩ (by decide)
      (Env.noFaults_ok 1)).2.1 ⟨2, 11⟩ (by decide) (by decide)⟩

/-- C7: the lines of a placed order are as many as the basket items and, position by
position, line `i` carries the identifier and the quantity of basket item `i` and the
unit price the store held for that item before the call. -/
theorem PlaceOrder_lines_in_basket_order (env : Env) (db db1 : Store)
    (orderToPlace : OrderToPlace) (o : PlacedOrder)
    (h : PlaceOrder env db orderToPlace = (.ok o, db1)) :
    o.Items.length = orderToPlace.Items.length ∧
      ∀ (i : Nat) (item : OrderItem), orderToPlace.Items[i]? = some item →
        ∃ (line : SelectedItem) (row : ItemRow), o.Items[i]? = some line ∧ line.ID = item.ID ∧
          line.Quantity = item.Quantity ∧ db.items item.ID = some row ∧
          line.PriceCents = row.priceCents := by
  have hall := PlaceOrder_lines h
  refine ⟨hall.length_eq.symm, fun i item hi => ?_⟩
  obtain ⟨line, hline, hid, hqty, q, rate, hrec, -⟩ := forall₂_getElem? hall i item hi
  obtain ⟨row, hrow, -, hprice⟩ := exists_item_of_stockRecord hrec
  exact ⟨line, row, hline, hid, hqty, hrow, hprice.symm⟩

/-- C7 at the request of `Test_PlaceOrder_Success`: the second line is the one of the
second basket item, item 2 in quantity 1 at 2550 cents. -/
theorem PlaceOrder_lines_in_basket_order_witness :
    PlaceOrder (Env.ok 1) shop basket21 =
        (.ok placed21, (PlaceOrder (Env.ok 1) shop basket21).2) ∧
      placed21.Items.length = basket21.Items.length ∧
      ∃ (line : SelectedItem) (row : ItemRow), placed21.Items[1]? = some line ∧ line.ID = 2 ∧ line.Quantity = 1 ∧
        shop.items 2 = some row ∧ line.PriceCents = row.priceCents :=
  have h := PlaceOrder_lines_in_basket_order (Env.ok 1) shop
    (PlaceOrder (Env.ok 1) shop basket21).2 basket21 placed21 rfl
  ⟨rfl, h.1, h.2 1 ⟨2, 1⟩ rfl⟩

/-- C8 fails on the code: no function of the returned error value gives back the
identifier of the item that was not found, because line 137 returns the bare
`ErrItemNotFound` for every such item (requests for the missing items 998 and 999
return the same value), whereas line 144 attaches the identifier to
`ErrInsufficientStock`. -/
theorem ErrItemNotFound_does_not_identify_item :
    (PlaceOrder (Env.ok 1) shop ⟨[⟨999, 1⟩]⟩).1 = .error .ErrItemNotFound ∧
      (PlaceOrder (Env.ok 1) shop ⟨[⟨998, 1⟩]⟩).1 = .error .ErrItemNotFound ∧
      (PlaceOrder (Env.ok 1) shop ⟨[⟨1, 20⟩]⟩).1 = .error (.ErrInsufficientStock 1) ∧
      ¬ ∃ itemOf : OrderError → Int, ∀ (db : Store) (id : Int), stockRecord db id = none →
          ∃ e, (PlaceOrder (Env.ok 1) db ⟨[⟨id, 1⟩]⟩).1 = .error e ∧ itemOf e = id := by
  refine ⟨rfl, rfl, rfl, ?_⟩
  rintro ⟨itemOf, hrec⟩
  obtain ⟨e1, h1, h1id⟩ := hrec shop 999 rfl
  obtain ⟨e2, h2, h2id⟩ := hrec shop 998 rfl
  have he1 : e1 = .ErrItemNotFound := by
    have : (Except.error OrderError.ErrItemNotFound : Except OrderError PlacedOrder) = .error e1 := h1
    injection this with this
    exact this.symm
  have he2 : e2 = .ErrItemNotFound := by
    have : (Except.error OrderError.ErrItemNotFound : Except OrderError PlacedOrder) = .error e2 := h2
    injection this with this
    exact this.symm
  rw [he1] at h1id
  rw [he2] at h2id
  omega

/-- C9 as stated fails: on the catalogue and the request of the example the order is
placed with `TotalVATCents = 44561`, not `2 × 22000 + 2 × floor((2550 × 22 + 50) / 100)`,
which is 45122. -/
theorem PlaceOrder_example_totalTax :
    (PlaceOrder (Env.ok 1) shop basket21).1 =
        .ok ⟨1, 202548, 44561, [⟨1, 99999, 22000, 2⟩, ⟨2, 2550, 561, 1⟩]⟩ ∧
      2 * 22000 + 2 * taxAmountSpec 2550 22 = 45122 :=
  ⟨rfl, by decide⟩

/-- C9, amended: on the catalogue and the request of the example, with no storage
failure, the order is placed with `TotalPriceCents = 2 × 99999 + 2550 = 202548` and
`TotalVATCents = 2 × 22000 + 1 × floor((2550 × 22 + 50) / 100) = 44561`, one unit of
item 2 being requested; the stock goes to 8 units of item 1 and 9 of item 2. -/
theorem PlaceOrder_example (env : Env) (hf : env.noFaults) :
    ∃ o db1, PlaceOrder env shop basket21 = (.ok o, db1) ∧
      o.TotalPriceCents = 2 * 99999 + 2550 ∧ o.TotalPriceCents = 202548 ∧
      o.TotalVATCents = 2 * 22000 + 1 * taxAmountSpec 2550 22 ∧ o.TotalVATCents = 44561 ∧
      db1.items 1 = some ⟨8, 99999, 1⟩ ∧ db1.items 2 = some ⟨9, 2550, 1⟩ := by
  obtain ⟨orderId, rfl⟩ := Env.eq_ok_of_noFaults hf
  exact ⟨⟨orderId, 202548, 44561, [⟨1, 99999, 22000, 2⟩, ⟨2, 2550, 561, 1⟩]⟩,
    (PlaceOrder (Env.ok orderId) shop basket21).2, rfl, rfl, rfl, rfl, rfl, rfl, rfl⟩

/-- C9, amended, with the new order numbered 7. -/
theorem PlaceOrder_example_witness :
    (Env.ok 7).noFaults ∧
      ∃ o db1, PlaceOrder (Env.ok 7) shop basket21 = (.ok o, db1) ∧
        o.TotalPriceCents = 2 * 99999 + 2550 ∧ o.TotalPriceCents = 202548 ∧
        o.TotalVATCents = 2 * 22000 + 1 * taxAmountSpec 2550 22 ∧ o.TotalVATCents = 44561 ∧
        db1.items 1 = some ⟨8, 99999, 1⟩ ∧ db1.items 2 = some ⟨9, 2550, 1⟩ :=
  ⟨Env.noFaults_ok 7, PlaceOrder_example (Env.ok 7) (Env.noFaults_ok 7)⟩

end Orders
